import Mathlib

/-!
# Verification of the NFT metadata serialization contract

A shallow embedding of `src/lib.rs` of `nft-metadata-rs`: the `Metadata`,
`AttributeEntry` and `DisplayType` model types and the serde-generated
JSON codec, including the custom `rgb8_fromhex_opt` color transform.

The embedding works at the level of serde's structured-value data model:
a `Json` tree with numbers as exact rationals.  Encoding follows the
derived `Serialize` impls (field declaration order; `Option` fields with
no `skip_serializing_if` serialize `None` as JSON `null`); decoding
follows the derived `Deserialize` impls (unknown keys ignored,
`#[serde(default)]` on `attributes` and `background_color`, untagged
variant trial in declaration order for `AttributeEntry`).
-/

/-- A JSON structured value, as seen by the serde data model.  Numbers are
modelled as exact rationals; a JSON number token such as `-1` or `0.5`
maps to the corresponding rational. -/
inductive Json where
  | null : Json
  | bool (b : Bool) : Json
  | num (q : ℚ) : Json
  | str (s : String) : Json
  | arr (elems : List Json) : Json
  | obj (fields : List (String × Json)) : Json
deriving Repr

/-- Field lookup on a JSON object: the first binding of the key, `none` on
non-objects and absent keys (serde's map access ignores unknown keys). -/
def Json.getField (j : Json) (key : String) : Option Json :=
  match j with
  | .obj fields => fields.lookup key
  | _ => none

/-- Decode errors, carrying the data serde errors carry: the missing
field's name, the field at which a type mismatch happened, or a custom
message (as produced by `D::Error::custom` in `rgb8_fromhex_opt`). -/
inductive DecodeError where
  | missingField (field : String)
  | invalidType (field : String) (expected : String)
  | custom (msg : String)
deriving Repr, DecidableEq

/-- The `rgb::RGB8` color triple: three 8-bit channels, modelled as `Nat`
with the `< 256` range carried as a validity side condition. -/
structure RGB8 where
  r : Nat
  g : Nat
  b : Nat
deriving Repr, DecidableEq

/-- Channel values fit in 8 bits, as `u8` guarantees in the source. -/
def RGB8.validb (c : RGB8) : Bool :=
  decide (c.r < 256) && decide (c.g < 256) && decide (c.b < 256)

/-- A parsed `url::Url`, kept as its canonical string form. -/
structure Url where
  toStr : String
deriving Repr, DecidableEq

/-- Characters allowed in a URL scheme after the leading letter. -/
def schemeCharOk (c : Char) : Bool :=
  c.isAlphanum || c == '+' || c == '-' || c == '.'

/-- Scan the tail of a candidate URL: scheme characters up to a colon,
with a nonempty remainder after the colon. -/
def schemeTailOk : List Char → Bool
  | [] => false
  | ':' :: rest => !rest.isEmpty
  | c :: rest => schemeCharOk c && schemeTailOk rest

/-- Modelled from the spec: the `url` crate (a dependency, not in `src/`)
accepts RFC 3986 absolute URL strings — a letter-led scheme, a colon, and
a nonempty remainder; the codec checks only syntactic parseability. -/
def urlOk (s : String) : Bool :=
  match s.toList with
  | [] => false
  | c :: rest => c.isAlpha && schemeTailOk rest

/-- Modelled from the spec: `url::Url` parsing — succeed exactly on
syntactically acceptable absolute URL strings, keeping the string. -/
def Url.parse (s : String) : Option Url :=
  if urlOk s then some ⟨s⟩ else none

/-- A `Url` value holds a string the parser accepts (true of every value
produced by `url::Url`, which can only be built by parsing). -/
def Url.validb (u : Url) : Bool := urlOk u.toStr

/-- Value of a single hex digit, case-insensitive (the `hex` crate's
decode accepts both cases). -/
def hexDigit? (c : Char) : Option Nat :=
  if '0' ≤ c ∧ c ≤ '9' then some (c.toNat - '0'.toNat)
  else if 'a' ≤ c ∧ c ≤ 'f' then some (c.toNat - 'a'.toNat + 10)
  else if 'A' ≤ c ∧ c ≤ 'F' then some (c.toNat - 'A'.toNat + 10)
  else none

/-- Hex-decode a character list two digits at a time, as `hex::decode`
does: fails on an odd digit count or any non-hex character. -/
def hexDecodeList : List Char → Option (List Nat)
  | [] => some []
  | [_] => none
  | c1 :: c2 :: rest => do
    let hi ← hexDigit? c1
    let lo ← hexDigit? c2
    let bytes ← hexDecodeList rest
    pure ((16 * hi + lo) :: bytes)

/-- `hex::decode` on a string. -/
def hexDecode (s : String) : Option (List Nat) := hexDecodeList s.toList

/-- Lowercase hex digit for a value below 16. -/
def hexDigitChar (n : Nat) : Char :=
  if n < 10 then Char.ofNat ('0'.toNat + n) else Char.ofNat ('a'.toNat + (n - 10))

/-- Two lowercase hex digits of a byte, as `hex::encode` emits. -/
def hexByte (n : Nat) : List Char := [hexDigitChar (n / 16 % 16), hexDigitChar (n % 16)]

/-- `hex::encode` of a byte list: lowercase, two digits per byte. -/
def hexEncode (bytes : List Nat) : String := ⟨(bytes.map hexByte).flatten⟩

namespace rgb8_fromhex_opt

/-- `rgb8_fromhex_opt::deserialize`: run `hex::deserialize` (which demands
a string and hex-decodes it), then require exactly 3 bytes, else
`Error::custom("expected color hex string")`.  Note this function never
yields `none`: the `None` case of the field comes only from
`#[serde(default)]` when the key is wholly absent. -/
def deserialize (j : Json) : Except DecodeError (Option RGB8) :=
  match j with
  | .str s =>
    match hexDecode s with
    | none => .error (.custom "hex decode failure")
    | some [r0, g0, b0] => .ok (some ⟨r0, g0, b0⟩)
    | some _ => .error (.custom "expected color hex string")
  | _ => .error (.invalidType "background_color" "a string")

/-- `rgb8_fromhex_opt::serialize`: `Some` becomes `hex::serialize` of the
3 channel bytes; `None` serializes as `None::<()>` does, i.e. JSON null. -/
def serialize (v : Option RGB8) : Json :=
  match v with
  | some c => .str (hexEncode [c.r, c.g, c.b])
  | none => .null

end rgb8_fromhex_opt

/-- `DisplayType`: the closed enumeration of display hints. -/
inductive DisplayType where
  | number
  | boostPercentage
  | boostNumber
  | date
deriving Repr, DecidableEq

/-- The `rename_all = "snake_case"` wire token of each variant. -/
def DisplayType.token : DisplayType → String
  | .number => "number"
  | .boostPercentage => "boost_percentage"
  | .boostNumber => "boost_number"
  | .date => "date"

/-- Decode a wire token into the closed enumeration; anything outside the
four tokens is a decode error (`none`). -/
def DisplayType.fromToken (s : String) : Option DisplayType :=
  if s = "number" then some .number
  else if s = "boost_percentage" then some .boostPercentage
  else if s = "boost_number" then some .boostNumber
  else if s = "date" then some .date
  else none

/-- `AttributeEntry`: the untagged two-variant union.  `value` of the
numeric variant is a `u64`, modelled as `Nat` with the `< 2^64` range as
a validity side condition. -/
inductive AttributeEntry where
  | string (trait_type : String) (value : String)
  | number (trait_type : String) (value : Nat) (display_type : Option DisplayType)
deriving Repr, DecidableEq

/-- The numeric variant's value fits in `u64`. -/
def AttributeEntry.validb : AttributeEntry → Bool
  | .string _ _ => true
  | .number _ v _ => decide (v < 2 ^ 64)

/-- A rational JSON number deserializes into `u64` exactly when it is a
nonnegative integer below `2^64`; serde fails (no truncation, no
coercion) otherwise. -/
def ratAsU64? (q : ℚ) : Option Nat :=
  if q.den = 1 ∧ 0 ≤ q.num ∧ q.num < 2 ^ 64 then some q.num.toNat else none

/-- Untagged trial of the `String` variant: an object whose `trait_type`
and `value` fields are both JSON strings (extra keys ignored, as the
derived impl does). -/
def decodeStringVariant (j : Json) : Option AttributeEntry :=
  match j.getField "trait_type", j.getField "value" with
  | some (.str t), some (.str v) => some (.string t v)
  | _, _ => none

/-- Decode the optional `display_type` field of the numeric variant:
absent or null is `none`; a string must be one of the four closed tokens;
any other shape fails. -/
def decodeDisplayField : Option Json → Option (Option DisplayType)
  | Option.none => some Option.none
  | some .null => some Option.none
  | some (.str s) => (DisplayType.fromToken s).map some
  | some _ => Option.none

/-- Untagged trial of the `Number` variant: `trait_type` a string,
`value` a u64-representable JSON number, `display_type` as above. -/
def decodeNumberVariant (j : Json) : Option AttributeEntry :=
  match j.getField "trait_type", j.getField "value" with
  | some (.str t), some (.num q) =>
    match ratAsU64? q with
    | some v => (decodeDisplayField (j.getField "display_type")).map (.number t v ·)
    | Option.none => Option.none
  | _, _ => Option.none

/-- The derived untagged `Deserialize` for `AttributeEntry`: try the
variants in declaration order (`String` first, then `Number`) and take
the first success; if both fail, the whole element fails. -/
def AttributeEntry.decode (j : Json) : Except DecodeError AttributeEntry :=
  match decodeStringVariant j with
  | some a => .ok a
  | Option.none =>
    match decodeNumberVariant j with
    | some a => .ok a
    | Option.none =>
      .error (.custom "data did not match any variant of untagged enum AttributeEntry")

/-- The derived untagged `Serialize` for `AttributeEntry`: each variant
emits its own fields in declaration order; `Option` fields carry no
`skip_serializing_if`, so a `None` `display_type` serializes as null. -/
def AttributeEntry.encode : AttributeEntry → Json
  | .string t v => .obj [("trait_type", .str t), ("value", .str v)]
  | .number t v d =>
    .obj [("trait_type", .str t), ("value", .num (v : ℚ)),
          ("display_type", match d with
            | Option.none => .null
            | some dt => .str dt.token)]

/-- `Metadata`: the token-level record, fields in source order. -/
structure Metadata where
  image : Url
  external_url : Option Url
  description : String
  name : String
  attributes : List AttributeEntry
  background_color : Option RGB8
  animation_url : Option Url
  youtube_url : Option Url
deriving Repr, DecidableEq

/-- A well-typed `Metadata` value: every `Url` holds a parseable string,
every color channel fits in 8 bits, every numeric attribute in 64. -/
def Metadata.validb (m : Metadata) : Bool :=
  m.image.validb
    && m.external_url.all Url.validb
    && m.animation_url.all Url.validb
    && m.youtube_url.all Url.validb
    && m.attributes.all AttributeEntry.validb
    && m.background_color.all RGB8.validb

/-- Serialize an `Option<Url>` field: the derived impl emits the canonical
string for `Some` and null for `None` (no `skip_serializing_if`). -/
def encodeOptUrl : Option Url → Json
  | Option.none => .null
  | some u => .str u.toStr

/-- The field list the derived `Serialize` for `Metadata` emits: every
field emits a key, in declaration order; `background_color` goes through
`rgb8_fromhex_opt::serialize`. -/
def Metadata.encodeFields (m : Metadata) : List (String × Json) :=
  [("image", .str m.image.toStr),
   ("external_url", encodeOptUrl m.external_url),
   ("description", .str m.description),
   ("name", .str m.name),
   ("attributes", .arr (m.attributes.map AttributeEntry.encode)),
   ("background_color", rgb8_fromhex_opt.serialize m.background_color),
   ("animation_url", encodeOptUrl m.animation_url),
   ("youtube_url", encodeOptUrl m.youtube_url)]

/-- The derived `Serialize` for `Metadata`: a JSON object with every
field present. -/
def Metadata.encode (m : Metadata) : Json := .obj m.encodeFields

/-- Decode a required URL field: the value must be a JSON string that the
`url` parser accepts. -/
def decodeUrlField (field : String) : Json → Except DecodeError Url
  | .str s =>
    match Url.parse s with
    | some u => .ok u
    | Option.none => .error (.invalidType field "a valid URL")
  | _ => .error (.invalidType field "a string")

/-- Decode an `Option<Url>` field: absent or null is `none`; otherwise
the value must be a parseable URL string. -/
def decodeOptUrlField (field : String) : Option Json → Except DecodeError (Option Url)
  | Option.none => .ok Option.none
  | some .null => .ok Option.none
  | some jv => (decodeUrlField field jv).map some

/-- Decode a required string field (`description`, `name`). -/
def decodeStrField (field : String) : Option Json → Except DecodeError String
  | Option.none => .error (.missingField field)
  | some (.str s) => .ok s
  | some _ => .error (.invalidType field "a string")

/-- Decode the `attributes` array elementwise; the first failing element
fails the whole decode (no partial success). -/
def decodeAttrList : List Json → Except DecodeError (List AttributeEntry)
  | [] => .ok []
  | j :: rest => do
    let a ← AttributeEntry.decode j
    let l ← decodeAttrList rest
    .ok (a :: l)

/-- Decode the required `image` field: a missing-field error when the
key is absent, else a URL. -/
def decodeImageField : Option Json → Except DecodeError Url
  | Option.none => .error (.missingField "image")
  | some v => decodeUrlField "image" v

/-- Decode the `attributes` field, which carries `#[serde(default)]`:
an absent key decodes to the empty list; a present value must be a JSON
array of attribute entries. -/
def decodeAttributesField : Option Json → Except DecodeError (List AttributeEntry)
  | Option.none => .ok []
  | some (.arr l) => decodeAttrList l
  | some _ => .error (.invalidType "attributes" "a sequence")

/-- Decode the `background_color` field, which carries
`serde(with = "rgb8_fromhex_opt", default)`: an absent key is `none`
via the default, but any present value — including null — goes through
the custom deserializer. -/
def decodeBgField : Option Json → Except DecodeError (Option RGB8)
  | Option.none => .ok Option.none
  | some v => rgb8_fromhex_opt.deserialize v

/-- The derived `Deserialize` for `Metadata`: the input must be an
object; required fields are missing-field errors when absent; `Option`
fields default to `none` when absent and accept null; the first failing
field fails the whole decode.  Unknown keys are ignored. -/
def Metadata.decode (j : Json) : Except DecodeError Metadata :=
  match j with
  | .obj _ => do
    let image ← decodeImageField (j.getField "image")
    let external_url ← decodeOptUrlField "external_url" (j.getField "external_url")
    let description ← decodeStrField "description" (j.getField "description")
    let nm ← decodeStrField "name" (j.getField "name")
    let attributes ← decodeAttributesField (j.getField "attributes")
    let background_color ← decodeBgField (j.getField "background_color")
    let animation_url ← decodeOptUrlField "animation_url" (j.getField "animation_url")
    let youtube_url ← decodeOptUrlField "youtube_url" (j.getField "youtube_url")
    .ok { image := image, external_url := external_url, description := description,
          name := nm, attributes := attributes, background_color := background_color,
          animation_url := animation_url, youtube_url := youtube_url }
  | _ => .error (.invalidType "Metadata" "an object")

/-- Whether an `Except` result is an error (decode failure). -/
def exceptErr {ε α : Type} : Except ε α → Bool
  | .error _ => true
  | .ok _ => false

instance {ε α : Type} [DecidableEq ε] [DecidableEq α] : DecidableEq (Except ε α) := fun a b =>
  match a, b with
  | .ok x, .ok y =>
    if h : x = y then .isTrue (by rw [h]) else .isFalse (by intro hh; cases hh; exact h rfl)
  | .error x, .error y =>
    if h : x = y then .isTrue (by rw [h]) else .isFalse (by intro hh; cases hh; exact h rfl)
  | .ok _, .error _ => .isFalse (by intro hh; cases hh)
  | .error _, .ok _ => .isFalse (by intro hh; cases hh)

/-! ## Helper lemmas -/

lemma exbind_ok {ε α β : Type} {x : Except ε α} {f : α → Except ε β} {b : β}
    (h : x >>= f = .ok b) : ∃ a, x = .ok a ∧ f a = .ok b := by
  cases x with
  | ok a => exact ⟨a, rfl, h⟩
  | error e => exact absurd h (by simp [Bind.bind, Except.bind])

lemma hexDigit_hexDigitChar : ∀ d, d < 16 → hexDigit? (hexDigitChar d) = some d := by decide

lemma hexDecodeList_hexByte (n : Nat) (h : n < 256) (rest : List Char) :
    hexDecodeList (hexByte n ++ rest) = (hexDecodeList rest).map (n :: ·) := by
  have h1 : hexDigit? (hexDigitChar (n / 16 % 16)) = some (n / 16 % 16) :=
    hexDigit_hexDigitChar _ (Nat.mod_lt _ (by norm_num))
  have h2 : hexDigit? (hexDigitChar (n % 16)) = some (n % 16) :=
    hexDigit_hexDigitChar _ (Nat.mod_lt _ (by norm_num))
  simp only [hexByte, List.cons_append, List.nil_append, hexDecodeList, h1, h2]
  cases hr : hexDecodeList rest
  · simp [hr]
  · simp [hr]
    omega

lemma hexDecode_hexEncode_rgb (r g b : Nat) (hr : r < 256) (hg : g < 256) (hb : b < 256) :
    hexDecode (hexEncode [r, g, b]) = some [r, g, b] := by
  unfold hexDecode hexEncode
  simp only [List.map, List.flatten]
  rw [show (String.mk (hexByte r ++ (hexByte g ++ (hexByte b ++ [])))).toList
        = hexByte r ++ (hexByte g ++ (hexByte b ++ [])) from rfl]
  rw [hexDecodeList_hexByte r hr, hexDecodeList_hexByte g hg, hexDecodeList_hexByte b hb]
  rfl

lemma rgb_roundtrip (c : RGB8) (h : c.validb = true) :
    rgb8_fromhex_opt.deserialize (rgb8_fromhex_opt.serialize (some c)) = .ok (some c) := by
  simp only [RGB8.validb, Bool.and_eq_true, decide_eq_true_eq] at h
  have hx := hexDecode_hexEncode_rgb c.r c.g c.b h.1.1 h.1.2 h.2
  simp only [rgb8_fromhex_opt.serialize, rgb8_fromhex_opt.deserialize, hx]

lemma decodeUrlField_roundtrip (f : String) (u : Url) (h : u.validb = true) :
    decodeUrlField f (.str u.toStr) = .ok u := by
  simp only [decodeUrlField, Url.parse]
  rw [show urlOk u.toStr = true from h]
  rfl

lemma decodeOptUrl_roundtrip (f : String) (o : Option Url) (h : o.all Url.validb = true) :
    decodeOptUrlField f (some (encodeOptUrl o)) = .ok o := by
  cases o with
  | none => rfl
  | some u =>
    simp only [Option.all_some] at h
    show (decodeUrlField f (.str u.toStr)).map some = .ok (some u)
    rw [decodeUrlField_roundtrip f u h]
    rfl

lemma displayType_roundtrip (dt : DisplayType) : DisplayType.fromToken dt.token = some dt := by
  cases dt <;> rfl

lemma ratAsU64_natCast (v : Nat) (h : v < 2 ^ 64) : ratAsU64? (v : ℚ) = some v := by
  unfold ratAsU64?
  rw [if_pos ⟨by simp, by positivity, by exact_mod_cast h⟩]
  simp

lemma decodeNumberVariant_eq (j : Json) (t : String) (q : ℚ) (ddt : Option Json)
    (h1 : j.getField "trait_type" = some (.str t)) (h2 : j.getField "value" = some (.num q))
    (h3 : j.getField "display_type" = ddt) :
    decodeNumberVariant j =
      match ratAsU64? q with
      | some v => (decodeDisplayField ddt).map (.number t v ·)
      | Option.none => Option.none := by
  unfold decodeNumberVariant
  rw [h1, h2, h3]

lemma numberVariant_roundtrip (t : String) (v : Nat) (d : Option DisplayType) (h : v < 2 ^ 64) :
    decodeNumberVariant (AttributeEntry.encode (.number t v d)) = some (.number t v d) := by
  rw [decodeNumberVariant_eq (AttributeEntry.encode (.number t v d)) t (v : ℚ)
      (some (match d with | Option.none => Json.null | some dt => Json.str dt.token)) rfl rfl rfl]
  rw [ratAsU64_natCast v h]
  cases d with
  | none => rfl
  | some dt =>
    show (decodeDisplayField (some (.str dt.token))).map _ = _
    simp [decodeDisplayField, displayType_roundtrip]

lemma decode_of_variants (j : Json) (hs : decodeStringVariant j = Option.none)
    (a : AttributeEntry) (hn : decodeNumberVariant j = some a) :
    AttributeEntry.decode j = .ok a := by
  unfold AttributeEntry.decode
  rw [hs, hn]

lemma attr_roundtrip (a : AttributeEntry) (h : a.validb = true) :
    AttributeEntry.decode (AttributeEntry.encode a) = .ok a := by
  cases a with
  | string t v => rfl
  | number t v d =>
    simp only [AttributeEntry.validb, decide_eq_true_eq] at h
    exact decode_of_variants (AttributeEntry.encode (.number t v d)) rfl _
      (numberVariant_roundtrip t v d h)

lemma decodeAttrList_roundtrip (l : List AttributeEntry) (h : l.all AttributeEntry.validb = true) :
    decodeAttrList (l.map AttributeEntry.encode) = .ok l := by
  induction l with
  | nil => rfl
  | cons a rest ih =>
    simp only [List.all_cons, Bool.and_eq_true] at h
    show (AttributeEntry.decode a.encode) >>= _ = _
    rw [attr_roundtrip a h.1]
    show decodeAttrList (rest.map AttributeEntry.encode) >>= _ = _
    rw [ih h.2]
    rfl

lemma ok_bind {ε α β : Type} (x : α) (f : α → Except ε β) :
    ((Except.ok x : Except ε α) >>= f) = f x := rfl

lemma Metadata.decode_obj (fs : List (String × Json)) (m : Metadata)
    (h1 : decodeImageField ((Json.obj fs).getField "image") = .ok m.image)
    (h2 : decodeOptUrlField "external_url" ((Json.obj fs).getField "external_url")
            = .ok m.external_url)
    (h3 : decodeStrField "description" ((Json.obj fs).getField "description")
            = .ok m.description)
    (h4 : decodeStrField "name" ((Json.obj fs).getField "name") = .ok m.name)
    (h5 : decodeAttributesField ((Json.obj fs).getField "attributes") = .ok m.attributes)
    (h6 : decodeBgField ((Json.obj fs).getField "background_color")
            = .ok m.background_color)
    (h7 : decodeOptUrlField "animation_url" ((Json.obj fs).getField "animation_url")
            = .ok m.animation_url)
    (h8 : decodeOptUrlField "youtube_url" ((Json.obj fs).getField "youtube_url")
            = .ok m.youtube_url) :
    Metadata.decode (.obj fs) = .ok m := by
  unfold Metadata.decode
  rw [h1, ok_bind, h2, ok_bind, h3, ok_bind, h4, ok_bind, h5, ok_bind, h6, ok_bind,
      h7, ok_bind, h8, ok_bind]

/-! ## Concrete values used by the claims -/

/-- A minimal well-formed metadata value with every optional field absent. -/
def mBase : Metadata :=
  { image := ⟨"https://e.example/i.png"⟩, external_url := Option.none, description := "d",
    name := "n", attributes := [], background_color := Option.none,
    animation_url := Option.none, youtube_url := Option.none }

/-- A metadata value exercising every field, color present. -/
def mFull : Metadata :=
  { image := ⟨"https://assets.wanderers.ai/file/planetpass/vid/0/0.mp4"⟩,
    external_url := some ⟨"https://wanderers.ai/"⟩,
    description := "Visit this planet!", name := "Rocketeer X",
    attributes := [.string "Core" "Vortex", .number "Level" 5 (some .number),
                   .number "Rank" 2 Option.none],
    background_color := some ⟨242, 242, 242⟩,
    animation_url := some ⟨"https://e.example/v.mp4"⟩, youtube_url := Option.none }

/-- A wire object with the three required fields and nothing else. -/
def objBase : Json :=
  .obj [("image", .str "https://e.example/i.png"), ("description", .str "d"),
        ("name", .str "n")]

/-! ## C1: round-trip -/

/-- C1 counterexample: the claim `decode(encode(m)) == m` for every valid
`m` fails at a metadata value whose `background_color` is absent: the
derived serializer emits `"background_color": null` (no
`skip_serializing_if`), and `rgb8_fromhex_opt::deserialize` rejects null,
so the re-decode errors instead of returning the value. -/
theorem c1_roundtrip_counterexample :
    Metadata.decode (Metadata.encode mBase) ≠ Except.ok mBase := by decide

/-- C1 (amended): for every valid `Metadata` value whose
`background_color` is present, decoding the JSON produced by encoding it
yields a structurally equal value: `decode(encode(m)) = ok m`. -/
theorem c1_roundtrip (m : Metadata) (hv : m.validb = true)
    (hbg : m.background_color.isSome = true) :
    Metadata.decode (Metadata.encode m) = .ok m := by
  simp only [Metadata.validb, Bool.and_eq_true] at hv
  obtain ⟨⟨⟨⟨⟨him, hex⟩, han⟩, hyt⟩, hat⟩, hbgv⟩ := hv
  show Metadata.decode (.obj m.encodeFields) = .ok m
  apply Metadata.decode_obj m.encodeFields m
  · rw [show (Json.obj m.encodeFields).getField "image" = some (.str m.image.toStr) from rfl]
    show decodeUrlField "image" (.str m.image.toStr) = .ok m.image
    exact decodeUrlField_roundtrip "image" m.image him
  · rw [show (Json.obj m.encodeFields).getField "external_url"
        = some (encodeOptUrl m.external_url) from rfl]
    exact decodeOptUrl_roundtrip "external_url" m.external_url hex
  · rw [show (Json.obj m.encodeFields).getField "description"
        = some (.str m.description) from rfl]
    rfl
  · rw [show (Json.obj m.encodeFields).getField "name" = some (.str m.name) from rfl]
    rfl
  · rw [show (Json.obj m.encodeFields).getField "attributes"
        = some (.arr (m.attributes.map AttributeEntry.encode)) from rfl]
    show decodeAttrList (m.attributes.map AttributeEntry.encode) = .ok m.attributes
    exact decodeAttrList_roundtrip m.attributes hat
  · rw [show (Json.obj m.encodeFields).getField "background_color"
        = some (rgb8_fromhex_opt.serialize m.background_color) from rfl]
    cases hc : m.background_color with
    | none => rw [hc] at hbg; cases hbg
    | some c =>
      rw [hc] at hbgv
      simp only [Option.all_some] at hbgv
      show rgb8_fromhex_opt.deserialize (rgb8_fromhex_opt.serialize (some c)) = .ok (some c)
      exact rgb_roundtrip c hbgv
  · rw [show (Json.obj m.encodeFields).getField "animation_url"
        = some (encodeOptUrl m.animation_url) from rfl]
    exact decodeOptUrl_roundtrip "animation_url" m.animation_url han
  · rw [show (Json.obj m.encodeFields).getField "youtube_url"
        = some (encodeOptUrl m.youtube_url) from rfl]
    exact decodeOptUrl_roundtrip "youtube_url" m.youtube_url hyt

/-- C1 witness: the amended round-trip applied to a concrete full value. -/
theorem c1_roundtrip_witness :
    mFull.validb = true ∧ mFull.background_color.isSome = true
      ∧ Metadata.decode (Metadata.encode mFull) = .ok mFull :=
  ⟨by decide, by decide, c1_roundtrip mFull (by decide) (by decide)⟩

/-! ## C2: absent optional fields in the output -/

/-- C2 counterexample: the claim that an absent optional field is omitted
entirely from the output fails at `mBase` (all optional fields absent):
the encoder emits the `external_url` key with an explicit JSON null. -/
theorem c2_omission_counterexample :
    mBase.external_url = Option.none
      ∧ (Metadata.encode mBase).getField "external_url" = some Json.null :=
  ⟨rfl, rfl⟩

/-- C2 (amended): when encoding a `Metadata` value, every optional field
whose value is absent (`external_url`, `background_color`,
`animation_url`, `youtube_url`, and `display_type` inside a `Number`
attribute) is emitted as a key with an explicit JSON null value — the
key is not omitted. -/
theorem c2_absent_fields_emit_null (m : Metadata) :
    (m.external_url = Option.none →
      (Metadata.encode m).getField "external_url" = some Json.null)
    ∧ (m.background_color = Option.none →
      (Metadata.encode m).getField "background_color" = some Json.null)
    ∧ (m.animation_url = Option.none →
      (Metadata.encode m).getField "animation_url" = some Json.null)
    ∧ (m.youtube_url = Option.none →
      (Metadata.encode m).getField "youtube_url" = some Json.null)
    ∧ (∀ t v, (AttributeEntry.encode (.number t v Option.none)).getField "display_type"
        = some Json.null) := by
  refine ⟨fun h => ?_, fun h => ?_, fun h => ?_, fun h => ?_, fun t v => rfl⟩
  · rw [show (Metadata.encode m).getField "external_url"
        = some (encodeOptUrl m.external_url) from rfl, h]
    rfl
  · rw [show (Metadata.encode m).getField "background_color"
        = some (rgb8_fromhex_opt.serialize m.background_color) from rfl, h]
    rfl
  · rw [show (Metadata.encode m).getField "animation_url"
        = some (encodeOptUrl m.animation_url) from rfl, h]
    rfl
  · rw [show (Metadata.encode m).getField "youtube_url"
        = some (encodeOptUrl m.youtube_url) from rfl, h]
    rfl

/-- C2 witness: the amended statement applied to `mBase`. -/
theorem c2_absent_fields_emit_null_witness :
    mBase.external_url = Option.none
      ∧ (Metadata.encode mBase).getField "external_url" = some Json.null :=
  ⟨rfl, (c2_absent_fields_emit_null mBase).1 rfl⟩

/-! ## C3: color codec on the nominal example -/

/-- C3: the color codec decodes `"f2f2f2"` to RGB(242,242,242), decodes
case-insensitively (`"F2F2F2"` gives the same triple), and encodes
RGB(242,242,242) to exactly the lowercase string `"f2f2f2"` with no
prefix. -/
theorem c3_color_codec :
    rgb8_fromhex_opt.deserialize (.str "f2f2f2") = .ok (some ⟨242, 242, 242⟩)
    ∧ rgb8_fromhex_opt.deserialize (.str "F2F2F2") = .ok (some ⟨242, 242, 242⟩)
    ∧ rgb8_fromhex_opt.serialize (some ⟨242, 242, 242⟩) = .str "f2f2f2" :=
  ⟨rfl, rfl, rfl⟩

/-! ## C4: malformed color strings -/

lemma hexDecodeList_oddlen : ∀ l : List Char, l.length % 2 = 1 →
    hexDecodeList l = Option.none := by
  intro l
  induction l using hexDecodeList.induct with
  | case1 => intro h; simp at h
  | case2 c => intro _; rfl
  | case3 c1 c2 rest ih =>
    intro h
    simp only [List.length_cons] at h
    simp only [hexDecodeList]
    cases hexDigit? c1 <;> simp
    cases hexDigit? c2 <;> simp
    rw [ih (by omega)]
    simp

lemma hexDecodeList_badchar : ∀ l : List Char, (∃ c ∈ l, hexDigit? c = Option.none) →
    hexDecodeList l = Option.none := by
  intro l
  induction l using hexDecodeList.induct with
  | case1 => rintro ⟨c, hc, _⟩; cases hc
  | case2 c => intro _; rfl
  | case3 c1 c2 rest ih =>
    rintro ⟨c, hc, hnone⟩
    simp only [hexDecodeList]
    rcases hc with _ | ⟨_, hc⟩
    · rw [hnone]; rfl
    · rcases hc with _ | ⟨_, hc⟩
      · rw [hnone]
        cases hexDigit? c1 <;> rfl
      · rw [ih ⟨c, hc, hnone⟩]
        cases hexDigit? c1 <;> cases hexDigit? c2 <;> rfl

lemma deserialize_str_eq (s : String) :
    rgb8_fromhex_opt.deserialize (.str s) =
      (match hexDecode s with
        | Option.none =>
            (.error (.custom "hex decode failure") : Except DecodeError (Option RGB8))
        | some [r0, g0, b0] => .ok (some ⟨r0, g0, b0⟩)
        | some _ => .error (.custom "expected color hex string")) := rfl

lemma deserialize_err_of_not3 (s : String) (h : ∀ l, hexDecode s = some l → l.length ≠ 3) :
    exceptErr (rgb8_fromhex_opt.deserialize (.str s)) = true := by
  rw [deserialize_str_eq]
  cases hd : hexDecode s with
  | none => rfl
  | some l =>
    have hne := h l hd
    rcases l with _ | ⟨a, _ | ⟨b, _ | ⟨c, _ | ⟨d, tl⟩⟩⟩⟩
    · rfl
    · rfl
    · rfl
    · exact absurd rfl hne
    · rfl

/-- C4: decoding a `background_color` string fails whenever the string
does not hex-decode to exactly 3 bytes: `"f2f2f2f2"` fails with the
color-format error, and any string that hex-decodes to a byte count
other than 3, contains a non-hex character, or has an odd number of
digits also fails. -/
theorem c4_color_format_errors :
    rgb8_fromhex_opt.deserialize (.str "f2f2f2f2")
        = .error (.custom "expected color hex string")
    ∧ (∀ s : String, (∀ l, hexDecode s = some l → l.length ≠ 3) →
        exceptErr (rgb8_fromhex_opt.deserialize (.str s)) = true)
    ∧ (∀ s : String, (∃ c ∈ s.toList, hexDigit? c = Option.none) →
        exceptErr (rgb8_fromhex_opt.deserialize (.str s)) = true)
    ∧ (∀ s : String, s.toList.length % 2 = 1 →
        exceptErr (rgb8_fromhex_opt.deserialize (.str s)) = true) := by
  refine ⟨by decide, deserialize_err_of_not3, fun s hs => ?_, fun s hs => ?_⟩
  · apply deserialize_err_of_not3
    intro l hl
    rw [show hexDecode s = hexDecodeList s.toList from rfl,
        hexDecodeList_badchar s.toList hs] at hl
    cases hl
  · apply deserialize_err_of_not3
    intro l hl
    rw [show hexDecode s = hexDecodeList s.toList from rfl,
        hexDecodeList_oddlen s.toList hs] at hl
    cases hl

/-- C4 witness: the error cases at the concrete inputs `"zz"` (non-hex
characters), `"abc"` (odd digit count) and `"f2f2"` (2 bytes, not 3). -/
theorem c4_color_format_errors_witness :
    exceptErr (rgb8_fromhex_opt.deserialize (.str "zz")) = true
    ∧ exceptErr (rgb8_fromhex_opt.deserialize (.str "abc")) = true
    ∧ exceptErr (rgb8_fromhex_opt.deserialize (.str "f2f2")) = true :=
  ⟨c4_color_format_errors.2.2.1 "zz" ⟨'z', by decide, by decide⟩,
   c4_color_format_errors.2.2.2 "abc" (by decide),
   c4_color_format_errors.2.1 "f2f2" (by
    intro l hl
    rw [show hexDecode "f2f2" = some [242, 242] from by decide] at hl
    injection hl with h
    rw [← h]
    decide)⟩

/-! ## C5 and C6: untagged attribute discrimination -/

lemma decodeStringVariant_some {j : Json} {a : AttributeEntry}
    (h : decodeStringVariant j = some a) :
    ∃ t v, a = .string t v ∧ j.getField "trait_type" = some (.str t) ∧
      j.getField "value" = some (.str v) := by
  unfold decodeStringVariant at h
  split at h
  · cases h; exact ⟨_, _, rfl, by assumption, by assumption⟩
  · cases h

lemma decodeNumberVariant_some {j : Json} {a : AttributeEntry}
    (h : decodeNumberVariant j = some a) :
    ∃ t q v d, a = .number t v d ∧ j.getField "trait_type" = some (.str t) ∧
      j.getField "value" = some (.num q) ∧ ratAsU64? q = some v ∧
      decodeDisplayField (j.getField "display_type") = some d := by
  unfold decodeNumberVariant at h
  split at h
  · rename_i t q h1 h2
    split at h
    · rename_i v hq
      rcases hd : decodeDisplayField (j.getField "display_type") with _ | d
      · rw [hd] at h; cases h
      · rw [hd] at h
        cases h
        exact ⟨t, q, v, d, rfl, h1, h2, hq, rfl⟩
    · cases h
  · cases h

lemma attrDecode_ok {j : Json} {a : AttributeEntry} (h : AttributeEntry.decode j = .ok a) :
    decodeStringVariant j = some a ∨
      (decodeStringVariant j = Option.none ∧ decodeNumberVariant j = some a) := by
  unfold AttributeEntry.decode at h
  split at h
  · rename_i a0 heq
    cases h
    exact Or.inl heq
  · rename_i heq1
    split at h
    · rename_i a0 heq2
      cases h
      exact Or.inr ⟨heq1, heq2⟩
    · cases h

lemma attrDecode_err {j : Json} (hs : decodeStringVariant j = Option.none)
    (hn : decodeNumberVariant j = Option.none) :
    exceptErr (AttributeEntry.decode j) = true := by
  unfold AttributeEntry.decode
  rw [hs, hn]
  rfl

/-- C5: the decoded variant of an attribute element depends only on the
structural type of its `value` field: a numeric `value` never yields the
`String` variant, a string `value` never yields the `Number` variant,
and a `value` of any other shape (or an absent `value`) fails; the two
nominal examples decode to the expected variants. -/
theorem c5_untagged_discrimination (j : Json) :
    ((∃ q, j.getField "value" = some (.num q)) →
      ∀ t v, AttributeEntry.decode j ≠ .ok (.string t v))
    ∧ ((∃ s, j.getField "value" = some (.str s)) →
      ∀ t v d, AttributeEntry.decode j ≠ .ok (.number t v d))
    ∧ (((∀ q, j.getField "value" ≠ some (.num q))
        ∧ (∀ s, j.getField "value" ≠ some (.str s))) →
      exceptErr (AttributeEntry.decode j) = true)
    ∧ AttributeEntry.decode (.obj [("trait_type", .str "Core"), ("value", .str "Vortex")])
        = .ok (.string "Core" "Vortex")
    ∧ AttributeEntry.decode (.obj [("trait_type", .str "Level"), ("value", .num 5),
        ("display_type", .str "number")]) = .ok (.number "Level" 5 (some .number)) := by
  refine ⟨?_, ?_, ?_, by decide, by decide⟩
  · rintro ⟨q, hq⟩ t v hdec
    rcases attrDecode_ok hdec with hs | ⟨_, hn⟩
    · obtain ⟨t', v', _, _, hval⟩ := decodeStringVariant_some hs
      rw [hq] at hval
      exact Json.noConfusion (Option.some.inj hval)
    · obtain ⟨t', q', v', d', heq, _, _, _, _⟩ := decodeNumberVariant_some hn
      exact AttributeEntry.noConfusion heq
  · rintro ⟨s, hq⟩ t v d hdec
    rcases attrDecode_ok hdec with hs | ⟨_, hn⟩
    · obtain ⟨t', v', heq, _, _⟩ := decodeStringVariant_some hs
      exact AttributeEntry.noConfusion heq
    · obtain ⟨t', q', v', d', _, _, hval, _, _⟩ := decodeNumberVariant_some hn
      rw [hq] at hval
      exact Json.noConfusion (Option.some.inj hval)
  · rintro ⟨hnq, hns⟩
    apply attrDecode_err
    · cases hs : decodeStringVariant j with
      | none => rfl
      | some a =>
        obtain ⟨t, v, _, _, hval⟩ := decodeStringVariant_some hs
        exact absurd hval (hns v)
    · cases hn : decodeNumberVariant j with
      | none => rfl
      | some a =>
        obtain ⟨t, q, v, d, _, _, hval, _, _⟩ := decodeNumberVariant_some hn
        exact absurd hval (hnq q)

/-- C5 witness: discrimination at a concrete numeric-valued element. -/
theorem c5_untagged_discrimination_witness :
    AttributeEntry.decode (.obj [("trait_type", .str "T"), ("value", .num 3)])
      ≠ .ok (.string "T" "3") :=
  (c5_untagged_discrimination (.obj [("trait_type", .str "T"), ("value", .num 3)])).1
    ⟨3, rfl⟩ "T" "3"

/-- C6: an attribute element whose `value` is a JSON number that is not
a nonnegative integer below `2^64` (negative, fractional, or
overflowing) fails to decode rather than truncating or coercing; in
particular `{"trait_type":"X","value":-1}` fails. -/
theorem c6_u64_range_errors :
    (∀ (j : Json) (q : ℚ), j.getField "value" = some (.num q) →
      ¬(q.den = 1 ∧ 0 ≤ q.num ∧ q.num < 2 ^ 64) →
      exceptErr (AttributeEntry.decode j) = true)
    ∧ exceptErr (AttributeEntry.decode
        (.obj [("trait_type", .str "X"), ("value", .num (-1))])) = true := by
  refine ⟨fun j q hq hrange => ?_, by decide⟩
  apply attrDecode_err
  · cases hs : decodeStringVariant j with
    | none => rfl
    | some a =>
      obtain ⟨_, _, _, _, hval⟩ := decodeStringVariant_some hs
      rw [hq] at hval
      exact Json.noConfusion (Option.some.inj hval)
  · cases hn : decodeNumberVariant j with
    | none => rfl
    | some a =>
      obtain ⟨t, q', v, d, _, _, hval, hu, _⟩ := decodeNumberVariant_some hn
      rw [hq] at hval
      have hqq : q' = q := (Json.num.inj (Option.some.inj hval)).symm
      rw [hqq] at hu
      unfold ratAsU64? at hu
      rw [if_neg hrange] at hu
      cases hu

/-- C6 witness: a negative value (-7) fails to decode. -/
theorem c6_u64_range_errors_witness :
    exceptErr (AttributeEntry.decode
      (.obj [("trait_type", .str "Y"), ("value", .num (-7))])) = true :=
  c6_u64_range_errors.1 (.obj [("trait_type", .str "Y"), ("value", .num (-7))])
    (-7) rfl (by decide)

/-! ## C7, C8, C10: object-level decoding -/

lemma metadataDecode_ok_inv {j : Json} {m : Metadata} (h : Metadata.decode j = .ok m) :
    decodeImageField (j.getField "image") = .ok m.image
    ∧ decodeOptUrlField "external_url" (j.getField "external_url") = .ok m.external_url
    ∧ decodeStrField "description" (j.getField "description") = .ok m.description
    ∧ decodeStrField "name" (j.getField "name") = .ok m.name
    ∧ decodeAttributesField (j.getField "attributes") = .ok m.attributes
    ∧ decodeBgField (j.getField "background_color") = .ok m.background_color
    ∧ decodeOptUrlField "animation_url" (j.getField "animation_url") = .ok m.animation_url
    ∧ decodeOptUrlField "youtube_url" (j.getField "youtube_url") = .ok m.youtube_url := by
  cases j with
  | obj fs =>
    unfold Metadata.decode at h
    obtain ⟨im, h1, h⟩ := exbind_ok h
    obtain ⟨ex, h2, h⟩ := exbind_ok h
    obtain ⟨de, h3, h⟩ := exbind_ok h
    obtain ⟨nm, h4, h⟩ := exbind_ok h
    obtain ⟨at0, h5, h⟩ := exbind_ok h
    obtain ⟨bg, h6, h⟩ := exbind_ok h
    obtain ⟨an, h7, h⟩ := exbind_ok h
    obtain ⟨yt, h8, h⟩ := exbind_ok h
    cases h
    exact ⟨h1, h2, h3, h4, h5, h6, h7, h8⟩
  | null => exact Except.noConfusion h
  | bool b => exact Except.noConfusion h
  | num q => exact Except.noConfusion h
  | str s => exact Except.noConfusion h
  | arr l => exact Except.noConfusion h

lemma decodeImageField_ok {o : Option Json} {u : Url} (h : decodeImageField o = .ok u) :
    ∃ s, o = some (.str s) := by
  match o with
  | Option.none => exact Except.noConfusion h
  | some v =>
    cases v with
    | str s => exact ⟨s, rfl⟩
    | null => exact Except.noConfusion h
    | bool b => exact Except.noConfusion h
    | num q => exact Except.noConfusion h
    | arr l => exact Except.noConfusion h
    | obj fs => exact Except.noConfusion h

lemma decodeStrField_ok {f : String} {o : Option Json} {s0 : String}
    (h : decodeStrField f o = .ok s0) : o = some (.str s0) := by
  match o with
  | Option.none => exact Except.noConfusion h
  | some v =>
    cases v with
    | str s => cases h; rfl
    | null => exact Except.noConfusion h
    | bool b => exact Except.noConfusion h
    | num q => exact Except.noConfusion h
    | arr l => exact Except.noConfusion h
    | obj fs => exact Except.noConfusion h

/-- A wire object with the required fields, `background_color` present
with an explicit null. -/
def objBgNull : Json :=
  .obj [("image", .str "https://e.example/i.png"), ("description", .str "d"),
        ("name", .str "n"), ("background_color", .null)]

/-- A wire object with the required fields and the three plain optional
URL fields present with explicit nulls. -/
def objUrlsNull : Json :=
  .obj [("image", .str "https://e.example/i.png"), ("external_url", .null),
        ("description", .str "d"), ("name", .str "n"),
        ("animation_url", .null), ("youtube_url", .null)]

/-- C7: an object with the required fields but no `attributes` key
decodes successfully with `attributes = []`, and in general any
successful decode of an object lacking the `attributes` key yields an
empty attribute sequence. -/
theorem c7_attributes_default :
    Metadata.decode objBase = .ok mBase
    ∧ mBase.attributes = []
    ∧ (∀ (j : Json) (m : Metadata), j.getField "attributes" = Option.none →
        Metadata.decode j = .ok m → m.attributes = []) := by
  refine ⟨by decide, rfl, fun j m hnone hdec => ?_⟩
  have h5 := (metadataDecode_ok_inv hdec).2.2.2.2.1
  rw [hnone] at h5
  exact (Except.ok.inj h5).symm

/-- C7 witness: the general statement applied to the concrete object. -/
theorem c7_attributes_default_witness :
    objBase.getField "attributes" = Option.none ∧ mBase.attributes = [] :=
  ⟨rfl, c7_attributes_default.2.2 objBase mBase rfl (by decide)⟩

/-- C8: decoding fails — producing no `Metadata` value — whenever any of
the required fields `image`, `description`, `name` is absent or not a
JSON string; on concrete inputs the error names the offending field
(missing-field or invalid-type). -/
theorem c8_required_fields (j : Json) :
    ((¬ ∃ s, j.getField "image" = some (.str s))
      ∨ (¬ ∃ s, j.getField "description" = some (.str s))
      ∨ (¬ ∃ s, j.getField "name" = some (.str s)) →
      ∀ m : Metadata, Metadata.decode j ≠ .ok m)
    ∧ Metadata.decode (.obj [("description", .str "d"), ("name", .str "n")])
        = .error (.missingField "image")
    ∧ Metadata.decode (.obj [("image", .str "https://e.example/i.png"), ("name", .str "n")])
        = .error (.missingField "description")
    ∧ Metadata.decode (.obj [("image", .str "https://e.example/i.png"),
        ("description", .str "d")]) = .error (.missingField "name")
    ∧ Metadata.decode (.obj [("image", .num 5), ("description", .str "d"),
        ("name", .str "n")]) = .error (.invalidType "image" "a string")
    ∧ Metadata.decode (.obj [("image", .str "https://e.example/i.png"),
        ("description", .arr []), ("name", .str "n")])
        = .error (.invalidType "description" "a string") := by
  refine ⟨fun hdisj m hdec => ?_, by decide, by decide, by decide, by decide, by decide⟩
  obtain ⟨h1, _, h3, h4, _⟩ := metadataDecode_ok_inv hdec
  rcases hdisj with hd | hd | hd
  · exact hd (decodeImageField_ok h1)
  · exact hd ⟨m.description, decodeStrField_ok h3⟩
  · exact hd ⟨m.name, decodeStrField_ok h4⟩

/-- C8 witness: an object lacking `image` decodes to no value. -/
theorem c8_required_fields_witness :
    Metadata.decode (.obj [("description", .str "d")]) ≠ .ok mBase :=
  (c8_required_fields (.obj [("description", .str "d")])).1
    (Or.inl (fun h => Option.noConfusion h.choose_spec)) mBase

/-! ## C9: attribute encoding shape -/

/-- C9 counterexample: the claim that the `Number` variant with an
absent `display_type` omits the key fails at
`Number { trait_type: "X", value: 1, display_type: None }`, whose
encoding carries a `display_type` key with an explicit JSON null. -/
theorem c9_displaytype_counterexample :
    (AttributeEntry.encode (.number "X" 1 Option.none)).getField "display_type"
      ≠ Option.none :=
  fun h => Option.noConfusion h

/-- C9 (amended): the `String` variant emits exactly `trait_type` and
`value` and never a `display_type` key; the `Number` variant with an
absent `display_type` emits the `display_type` key with an explicit JSON
null rather than omitting it. -/
theorem c9_variant_fields :
    (∀ t v, AttributeEntry.encode (.string t v)
        = .obj [("trait_type", .str t), ("value", .str v)]
      ∧ (AttributeEntry.encode (.string t v)).getField "display_type" = Option.none)
    ∧ (∀ t n, (AttributeEntry.encode (.number t n Option.none)).getField "display_type"
        = some Json.null) :=
  ⟨fun _ _ => ⟨rfl, rfl⟩, fun _ _ => rfl⟩

/-- C9 witness: the amended statement at concrete attribute values. -/
theorem c9_variant_fields_witness :
    (AttributeEntry.encode (.string "A" "B")).getField "display_type" = Option.none
    ∧ (AttributeEntry.encode (.number "X" 1 Option.none)).getField "display_type"
        = some Json.null :=
  ⟨(c9_variant_fields.1 "A" "B").2, c9_variant_fields.2 "X" 1⟩

/-! ## C10: explicit null background color -/

/-- C10: `background_color` present with JSON null is a decode error (no
decode of such an object can succeed, and the concrete object fails with
the type error from the custom deserializer), while complete omission of
the key decodes to no color; the plain optional URL fields accept an
explicit null as absent. -/
theorem c10_null_color :
    (∀ (j : Json) (m : Metadata), j.getField "background_color" = some Json.null →
      Metadata.decode j ≠ .ok m)
    ∧ Metadata.decode objBgNull = .error (.invalidType "background_color" "a string")
    ∧ Metadata.decode objBase = .ok mBase
    ∧ mBase.background_color = Option.none
    ∧ Metadata.decode objUrlsNull = .ok mBase := by
  refine ⟨fun j m hnull hdec => ?_, by decide, by decide, rfl, by decide⟩
  have h6 := (metadataDecode_ok_inv hdec).2.2.2.2.2.1
  rw [hnull] at h6
  exact Except.noConfusion h6

/-- C10 witness: the general null-rejection applied to the concrete
object with a null `background_color`. -/
theorem c10_null_color_witness :
    Metadata.decode objBgNull ≠ .ok mBase :=
  c10_null_color.1 objBgNull mBase rfl
